import Mathlib

/-!
Shallow embedding of the two lock-free ring buffers of the zaplog repository
(`src/pt/pf_bounded_spsc_zero_copy.h` and `src/pt/pf_mpsc_ringbuffer.h`).

Machine integers are modelled as `Int` (the C++ fields are `int32_t`/`int64_t`);
the packed 64-bit writer context `m_write_ctx` is modelled bit-exactly as a
`Nat` below `2^64` with the little-endian `memcpy` packing of the source's
`encode_ctx`/`decode_ctx`.  Each blocking operation is modelled as the single
pass of its retry loop in a quiescent environment: every iteration of the
source's `for(;;)` ends in a `return`, a `break` or an atomic `wait`, so a
one-pass function with an explicit "waits" outcome is exact when no other
thread intervenes between the loads of one pass.  A CAS loop on an atomic the
calling thread exclusively mutates (`update_write_ctx` / `update_read_ctx`)
returns true when the atomic still holds the expected value, returns false
when the observed value is negative (cancel sentinel), and otherwise retries
forever; the third case is the explicit `spins` outcome.  Statistics counters
(`m_write_stats`) and the atomic notify calls have no effect on the modelled
state and are omitted.
-/

namespace BoundedSpscZeroCopy

/-- Low 32 bits of a natural number read back as a two's-complement `int32_t`. -/
def toInt32 (n : Nat) : Int :=
  let r : Nat := n % 2 ^ 32
  if r < 2 ^ 31 then (r : Int) else (r : Int) - 2 ^ 32

/-- An `int32_t` value reinterpreted as its unsigned 32-bit representation. -/
def toUInt32n (x : Int) : Nat :=
  (x % 2 ^ 32).toNat

/-- Source `encode_ctx`: pack two `int32_t` into one 64-bit word by `memcpy`
(little endian: the first field occupies the low 32 bits). -/
def encode_ctx (x y : Int) : Nat :=
  toUInt32n x + 2 ^ 32 * toUInt32n y

/-- Source `decode_ctx`: unpack the two `int32_t` fields of a 64-bit word. -/
def decode_ctx (e : Nat) : Int × Int :=
  (toInt32 e, toInt32 (e / 2 ^ 32))

/-- The 64-bit word reinterpreted as `int64_t` is negative (used by the
source's `update_write_ctx` cancel check `0 > int64_t(expected)`). -/
def int64_neg (e : Nat) : Bool :=
  2 ^ 63 ≤ e % 2 ^ 64

/-- Source `is_front_side`: the ring is in front phase when `read ≤ write`. -/
def is_front_side (write_index read_index : Int) : Bool :=
  read_index ≤ write_index

/-- Source `check_write_available`: free space seen by the writer, together
with the tentative new write index (`-1` when no flip happens). -/
def check_write_available (write_index read_index maxSize : Int) : Int × Int :=
  if is_front_side write_index read_index then
    let avail := maxSize - write_index
    let top_area := read_index - 1
    if avail < top_area then
      (top_area, 0)
    else
      (avail, -1)
  else
    (read_index - write_index - 1, -1)

/-- Source `check_read_available`: readable range seen by the reader, together
with the tentative new read index (`-1` when no flip happens). -/
def check_read_available (write_index read_end_index read_index : Int) : Int × Int :=
  if is_front_side write_index read_index then
    (write_index - read_index, -1)
  else
    let avail := read_end_index - read_index
    if avail = 0 then
      (write_index, 0)
    else
      (avail, -1)

/-- Source `is_empty`. -/
def is_empty (write_index read_end_index read_index : Int) : Bool :=
  if is_front_side write_index read_index then
    write_index == read_index
  else
    read_end_index == read_index

/-- The writer's private scratch `m_write_im`. -/
structure WriteIm where
  write_ctx : Nat
  write_index2 : Int
  read_end_index2 : Int
  read_index : Int
  avail : Int
deriving DecidableEq

/-- The reader's private scratch `m_read_im`. -/
structure ReadIm where
  read_index : Int
  read_index2 : Int
  write_index : Int
  read_end_index : Int
  avail : Int
deriving DecidableEq

/-- The modelled state of one `BoundedSpscZeroCopy` object: the packed atomic
`m_write_ctx`, the atomic `m_read_index`, the two scratch records and the
construction-time capacity `kMaxSize`. -/
structure Spsc where
  write_ctx : Nat
  read_index : Int
  write_im : WriteIm
  read_im : ReadIm
  kMaxSize : Int
deriving DecidableEq

/-- A freshly constructed ring: both atomics zero, zero-initialised scratch. -/
def initSpsc (queueSize : Int) : Spsc :=
  { write_ctx := encode_ctx 0 0
    read_index := 0
    write_im := ⟨encode_ctx 0 0, 0, 0, 0, 0⟩
    read_im := ⟨0, 0, 0, 0, 0⟩
    kMaxSize := queueSize }

/-- Source `cancel`: each CAS loop leaves an already-negative atomic alone and
otherwise installs the sentinel (`encode_ctx (-1) (-1)` resp. `-1`). -/
def cancel (s : Spsc) : Spsc :=
  { s with
    write_ctx :=
      if (decode_ctx s.write_ctx).1 < 0 then s.write_ctx else encode_ctx (-1) (-1)
    read_index :=
      if s.read_index < 0 then s.read_index else -1 }

/-- Outcome of one acquire call: a returned pair (pointer modelled as a buffer
index, or `none` for `nullptr`; and the `int32_t` return value), or the call
reached the atomic wait. -/
inductive AcqRes
  | ret (ptr : Option Int) (rv : Int)
  | waits
deriving DecidableEq

/-- Source `getWritePtr` (one pass of the retry loop; the CAS in the
flip-publish path always succeeds here because the atomic still holds the
value loaded at entry in a quiescent environment). -/
def getWritePtr (s : Spsc) (wantSize : Int) : AcqRes × Spsc :=
  if s.kMaxSize / 2 < wantSize then
    (.ret none (-1), s)
  else
    let write_index := (decode_ctx s.write_ctx).1
    let read_end_index := (decode_ctx s.write_ctx).2
    if write_index < 0 then
      (.ret none (-1), s)
    else
      let read_index := s.read_index
      if read_index < 0 then
        (.ret none (-1), s)
      else
        let avail := (check_write_available write_index read_index s.kMaxSize).1
        let updated_write_index := (check_write_available write_index read_index s.kMaxSize).2
        let write_index2 := if 0 ≤ updated_write_index then updated_write_index else write_index
        let read_end_index2 := if 0 ≤ updated_write_index then write_index else read_end_index
        if 0 < avail ∧ wantSize ≤ avail then
          (.ret (some write_index2) avail,
            { s with write_im := ⟨s.write_ctx, write_index2, read_end_index2, read_index, avail⟩ })
        else
          let s' :=
            if 0 ≤ updated_write_index then
              { s with write_ctx := encode_ctx write_index2 read_end_index2 }
            else s
          if wantSize ≤ 0 then
            (.ret none 0, s')
          else
            (.waits, s')

/-- Source `getReadPtr` (one pass of the retry loop). -/
def getReadPtr (s : Spsc) (wantSize : Int) : AcqRes × Spsc :=
  if s.kMaxSize / 2 < wantSize then
    (.ret none (-1), s)
  else
    let read_index := s.read_index
    if read_index < 0 then
      (.ret none (-1), s)
    else
      let write_index := (decode_ctx s.write_ctx).1
      let read_end_index := (decode_ctx s.write_ctx).2
      if write_index < 0 then
        (.ret none (-1), s)
      else
        let avail := (check_read_available write_index read_end_index read_index).1
        let updated_read_index := (check_read_available write_index read_end_index read_index).2
        let read_index2 := if 0 ≤ updated_read_index then updated_read_index else read_index
        if 0 < avail ∧ wantSize ≤ avail then
          (.ret (some read_index2) avail,
            { s with read_im := ⟨read_index, read_index2, write_index, read_end_index, avail⟩ })
        else
          let s' :=
            if 0 ≤ updated_read_index then { s with read_index := read_index2 } else s
          if wantSize ≤ 0 then
            (.ret none 0, s')
          else
            (.waits, s')

/-- Outcome of a commit call: the returned `int32_t` with the post-state, or
the CAS loop of `update_write_ctx`/`update_read_ctx` spins forever (the
observed atomic neither matches the expected value nor is negative — never
reached under the single-mutator discipline). -/
inductive MoveRes
  | ret (rv : Int) (s' : Spsc)
  | spins
deriving DecidableEq

/-- Source `moveWritePtr`.  `PT_DEBUGBREAK` on an unchanged context is a
no-op in release builds and is omitted. -/
def moveWritePtr (s : Spsc) (writtenSize : Int) : MoveRes :=
  if s.write_im.avail < writtenSize then
    .ret (-1) s
  else
    let read_end_index2 := s.write_im.read_end_index2
    let new_write_index := s.write_im.write_index2 + writtenSize
    let new_read_end_index :=
      if is_front_side new_write_index s.write_im.read_index then new_write_index
      else read_end_index2
    let new_write_ctx := encode_ctx new_write_index new_read_end_index
    if s.write_ctx = s.write_im.write_ctx then
      .ret writtenSize
        { s with write_ctx := new_write_ctx, write_im := { s.write_im with avail := 0 } }
    else if int64_neg s.write_ctx then
      .ret (-1) s
    else
      .spins

/-- Source `moveReadPtr`. -/
def moveReadPtr (s : Spsc) (readSize : Int) : MoveRes :=
  if s.read_im.avail < readSize then
    .ret (-1) s
  else
    let new_read_index0 := s.read_im.read_index2 + readSize
    let new_read_index :=
      if ¬ is_front_side s.read_im.write_index s.read_im.read_index2 ∧
          s.read_im.read_end_index ≤ new_read_index0 then 0
      else new_read_index0
    if s.read_index = s.read_im.read_index then
      .ret readSize
        { s with read_index := new_read_index, read_im := { s.read_im with avail := 0 } }
    else if s.read_index < 0 then
      .ret (-1) s
    else
      .spins

/-- Outcome of `waitUntilEmptyForWriter`: returned because of cancellation,
returned because `is_empty` held, or reached the atomic wait. -/
inductive WaitRes
  | retCancelled
  | retEmpty
  | waits
deriving DecidableEq

/-- Source `waitUntilEmptyForWriter` (one pass of the retry loop). -/
def waitUntilEmptyForWriter (s : Spsc) : WaitRes :=
  let write_index := (decode_ctx s.write_ctx).1
  let read_end_index := (decode_ctx s.write_ctx).2
  if write_index < 0 then
    .retCancelled
  else if s.read_index < 0 then
    .retCancelled
  else if is_empty write_index read_end_index s.read_index then
    .retEmpty
  else
    .waits

/-- Source `toAlignedElement` scan loop: starting at element pointer `p`
(modelled as a byte address), try `fuel` successive element slots and return
the first whose address is a multiple of `reqAlign`. -/
def alignScan (eleAlign reqAlign : Nat) : Nat → Nat → Option Nat
  | _, 0 => none
  | p, fuel + 1 =>
    if p % reqAlign = 0 then some p else alignScan eleAlign reqAlign (p + eleAlign) fuel

/-- Source `toAlignedElement`: the loop bound is the `size_t` value
`reqAlign / eleAlign - 1` (which wraps when `reqAlign < eleAlign`); `none`
models reaching `PT_UNREACHABLE`. -/
def toAlignedElement (eleAlign reqAlign p : Nat) : Option Nat :=
  alignScan eleAlign reqAlign p ((reqAlign / eleAlign + (2 ^ 64 - 1)) % 2 ^ 64)

end BoundedSpscZeroCopy

namespace MpscRingBuffer

/-- The modelled state of one `MpscRingBuffer<max_size>`: the three atomic
`int64_t` indices, the consumer's recorded CAS pair and the template
parameter `max_size`. -/
structure Mpsc where
  write_index : Int
  read_max_index : Int
  read_index : Int
  read_index_expected : Int
  read_index_desired : Int
  maxSize : Int
deriving DecidableEq

/-- Source `read_availe` (sic): contiguous readable span. -/
def read_availe (maxSize read_max_index read_index : Int) : Int :=
  if read_index ≤ read_max_index then
    read_max_index - read_index
  else
    maxSize - read_index

/-- Outcome of one peek call: a returned pair (pointer modelled as a buffer
index, or `none` for an error return; and the `int64_t` return value), or the
call reached the atomic wait. -/
inductive PeekRes
  | ret (ptr : Option Int) (rv : Int)
  | waits
deriving DecidableEq

/-- Source `peekCommon` (one pass of the retry loop; the empty non-waiting
call returns `false`, i.e. the `int64_t` value `0`).  `%` on `int64_t` is
C truncated remainder, `Int.tmod`. -/
def peekCommon (s : Mpsc) (num : Int) (wait : Bool) : PeekRes × Mpsc :=
  let read_index := s.read_index
  let read_max_index := s.read_max_index
  if read_max_index < 0 then
    (.ret none (-1), s)
  else if read_index = read_max_index then
    if ¬ wait then (.ret none 0, s) else (.waits, s)
  else
    let avail := read_availe s.maxSize read_max_index read_index
    let num' := min avail num
    (.ret (some read_index) num',
      { s with
        read_index_expected := read_index
        read_index_desired := Int.tmod (read_index + num') s.maxSize })

end MpscRingBuffer

namespace BoundedSpscZeroCopy

/-- State of a capacity-64 ring after `getWritePtr 32` from the initial state
(writer scratch holds the whole buffer). -/
def traceA : Spsc :=
  { write_ctx := encode_ctx 0 0
    read_index := 0
    write_im := ⟨encode_ctx 0 0, 0, 0, 0, 64⟩
    read_im := ⟨0, 0, 0, 0, 0⟩
    kMaxSize := 64 }

/-- State after additionally committing 40 elements with `moveWritePtr 40`. -/
def traceB : Spsc :=
  { write_ctx := encode_ctx 40 40
    read_index := 0
    write_im := ⟨encode_ctx 0 0, 0, 0, 0, 0⟩
    read_im := ⟨0, 0, 0, 0, 0⟩
    kMaxSize := 64 }

/-- State after the reader's `getReadPtr 32` (reader scratch sees 40). -/
def traceC : Spsc :=
  { traceB with read_im := ⟨0, 0, 40, 40, 40⟩ }

/-- State after the reader commits all 40 with `moveReadPtr 40`. -/
def traceD : Spsc :=
  { traceB with read_index := 40, read_im := ⟨0, 0, 40, 40, 0⟩ }

/-- State after the writer's `getWritePtr 30` elects the flip to back phase
(scratch: tentative write index 0, tentative read end 40, avail 39). -/
def traceE : Spsc :=
  { traceD with write_im := ⟨encode_ctx 40 40, 0, 40, 40, 39⟩ }

/-- State after the writer commits 30 with `moveWritePtr 30`: the published
context is `(30, 40)` while the reader still sits at 40. -/
def traceF : Spsc :=
  { write_ctx := encode_ctx 30 40
    read_index := 40
    write_im := ⟨encode_ctx 40 40, 0, 40, 40, 0⟩
    read_im := ⟨0, 0, 40, 40, 0⟩
    kMaxSize := 64 }

/-- State of a capacity-64 ring after `getWritePtr 1; moveWritePtr 3` from the
initial state (write index 3). -/
def traceW3 : Spsc :=
  { write_ctx := encode_ctx 3 3
    read_index := 0
    write_im := ⟨encode_ctx 0 0, 0, 0, 0, 0⟩
    read_im := ⟨0, 0, 0, 0, 0⟩
    kMaxSize := 64 }

theorem decode_cancel_ctx : decode_ctx (encode_ctx (-1) (-1)) = (-1, -1) := by decide

theorem int64_neg_cancel_ctx : int64_neg (encode_ctx (-1) (-1)) = true := by decide

theorem ne_cancel_ctx_of_decode_nonneg {a : Nat} (h : 0 ≤ (decode_ctx a).1) :
    a ≠ encode_ctx (-1) (-1) := by
  intro he
  rw [he, decode_cancel_ctx] at h
  omega

/-- Any address returned by the `toAlignedElement` scan loop is a multiple of
the requested alignment. -/
theorem alignScan_aligned {eleAlign reqAlign q : Nat} :
    ∀ {fuel p : Nat}, alignScan eleAlign reqAlign p fuel = some q → q % reqAlign = 0 := by
  intro fuel
  induction fuel with
  | zero => intro p h; simp [alignScan] at h
  | succ k ih =>
    intro p h
    rw [alignScan] at h
    by_cases hp : p % reqAlign = 0
    · rw [if_pos hp] at h
      cases h
      exact hp
    · rw [if_neg hp] at h
      exact ih h

/-- On a ring whose published writer context decodes to a negative write
index, `getWritePtr` returns the pair `(nullptr, -1)`. -/
theorem getWritePtr_cancelled (t : Spsc) (want : Int)
    (h : (decode_ctx t.write_ctx).1 < 0) :
    (getWritePtr t want).1 = .ret none (-1) := by
  simp only [getWritePtr]
  split_ifs <;> first | rfl | omega

/-- On a ring whose reader index is negative, `getReadPtr` returns the pair
`(nullptr, -1)`. -/
theorem getReadPtr_cancelled (t : Spsc) (want : Int) (h : t.read_index < 0) :
    (getReadPtr t want).1 = .ret none (-1) := by
  simp only [getReadPtr]
  split_ifs <;> first | rfl | omega

/-- On a ring whose writer context holds the cancel sentinel while the
writer's scratch was stashed before cancellation, `moveWritePtr` returns `-1`
and leaves the state unchanged. -/
theorem moveWritePtr_cancelled (t : Spsc) (n : Int)
    (hwc : t.write_ctx = encode_ctx (-1) (-1))
    (him : 0 ≤ (decode_ctx t.write_im.write_ctx).1) :
    moveWritePtr t n = .ret (-1) t := by
  have hne : t.write_ctx ≠ t.write_im.write_ctx := by
    rw [hwc]
    exact fun h => ne_cancel_ctx_of_decode_nonneg him h.symm
  simp only [moveWritePtr]
  rcases lt_or_ge t.write_im.avail n with h | h
  · rw [if_pos h]
  · rw [if_neg (by omega), if_neg hne, if_pos (by rw [hwc]; exact int64_neg_cancel_ctx)]

/-- On a ring whose reader index is negative while the reader's scratch was
stashed before cancellation, `moveReadPtr` returns `-1` and leaves the state
unchanged. -/
theorem moveReadPtr_cancelled (t : Spsc) (n : Int)
    (hri : t.read_index < 0) (him : 0 ≤ t.read_im.read_index) :
    moveReadPtr t n = .ret (-1) t := by
  have hne : t.read_index ≠ t.read_im.read_index := by omega
  simp only [moveReadPtr]
  rcases lt_or_ge t.read_im.avail n with h | h
  · rw [if_pos h]
  · rw [if_neg (by omega), if_neg hne, if_pos hri]

/-- The tentative new write index computed by `check_write_available` is
either 0 (flip) or the no-flip marker `-1`. -/
theorem check_write_available_snd (w r m : Int) :
    (check_write_available w r m).2 = 0 ∨ (check_write_available w r m).2 = -1 := by
  simp only [check_write_available]
  split_ifs <;> simp

/-- A successful `getWritePtr` hands out a region starting either at buffer
index 0 (the writer elected the flip to back phase) or at the current decoded
write index. -/
theorem getWritePtr_success_ptr (s : Spsc) (want ptr avail : Int) (s' : Spsc)
    (hG : getWritePtr s want = (.ret (some ptr) avail, s')) :
    ptr = 0 ∨ ptr = (decode_ctx s.write_ctx).1 := by
  simp only [getWritePtr] at hG
  by_cases h1 : s.kMaxSize / 2 < want
  · rw [if_pos h1] at hG
    simp at hG
  rw [if_neg h1] at hG
  by_cases h2 : (decode_ctx s.write_ctx).1 < 0
  · rw [if_pos h2] at hG
    simp at hG
  rw [if_neg h2] at hG
  by_cases h3 : s.read_index < 0
  · rw [if_pos h3] at hG
    simp at hG
  rw [if_neg h3] at hG
  by_cases h4 : 0 < (check_write_available (decode_ctx s.write_ctx).1 s.read_index s.kMaxSize).1 ∧
      want ≤ (check_write_available (decode_ctx s.write_ctx).1 s.read_index s.kMaxSize).1
  · rw [if_pos h4] at hG
    by_cases h5 : (0 : Int) ≤
        (check_write_available (decode_ctx s.write_ctx).1 s.read_index s.kMaxSize).2
    · simp only [if_pos h5] at hG
      have hr := congrArg Prod.fst hG
      simp only [AcqRes.ret.injEq, Option.some.injEq] at hr
      rcases check_write_available_snd (decode_ctx s.write_ctx).1 s.read_index s.kMaxSize
        with hu | hu
      · left
        omega
      · rw [hu] at h5
        exact absurd h5 (by decide)
    · simp only [if_neg h5] at hG
      have hr := congrArg Prod.fst hG
      simp only [AcqRes.ret.injEq, Option.some.injEq] at hr
      right
      omega
  · rw [if_neg h4] at hG
    by_cases h6 : want ≤ 0
    · rw [if_pos h6] at hG
      simp at hG
    · rw [if_neg h6] at hG
      simp at hG

end BoundedSpscZeroCopy

open BoundedSpscZeroCopy MpscRingBuffer

/-- C1: for in-range indices, `check_write_available` computes the writer's
free space exactly as the spec's algorithm: in front phase it returns
`Capacity - write_index` with no index change when that is at least
`read_index - 1`, otherwise it flips to back returning `read_index - 1` with
tentative new write index 0; in back phase it returns
`read_index - write_index - 1` with no index change. -/
theorem spsc_check_write_available_spec (write_index read_index maxSize : Int)
    (hw0 : 0 ≤ write_index) (hw1 : write_index ≤ maxSize)
    (hr0 : 0 ≤ read_index) (hr1 : read_index ≤ maxSize) :
    (read_index ≤ write_index → maxSize - write_index ≥ read_index - 1 →
      check_write_available write_index read_index maxSize = (maxSize - write_index, -1)) ∧
    (read_index ≤ write_index → maxSize - write_index < read_index - 1 →
      check_write_available write_index read_index maxSize = (read_index - 1, 0)) ∧
    (write_index < read_index →
      check_write_available write_index read_index maxSize = (read_index - write_index - 1, -1)) := by
  refine ⟨fun h1 h2 => ?_, fun h1 h2 => ?_, fun h1 => ?_⟩ <;>
    simp only [check_write_available, is_front_side] <;>
    split_ifs with ha hb <;> simp_all <;> omega

/-- C1 witness: evaluation at `write_index = 40`, `read_index = 40`,
`Capacity = 64` (the front-phase flip case). -/
theorem spsc_check_write_available_spec_witness :
    (0 : Int) ≤ 40 ∧ (40 : Int) ≤ 64 ∧
    ((40 : Int) ≤ 40 → (64 : Int) - 40 < 40 - 1 →
      check_write_available 40 40 64 = (40 - 1, 0)) := by
  refine ⟨by decide, by decide, ?_⟩
  exact (spsc_check_write_available_spec 40 40 64 (by decide) (by decide)
    (by decide) (by decide)).2.1

/-- C2: for in-range indices, `check_read_available` computes the readable
range exactly as the spec's algorithm: in front phase it returns
`write_index - read_index` with no index change; in back phase it returns
`read_end_index - read_index`, except that when that difference is 0 it flips
to front, returning tentative new read index 0 and `avail = write_index`. -/
theorem spsc_check_read_available_spec (write_index read_end_index read_index maxSize : Int)
    (hw0 : 0 ≤ write_index) (hw1 : write_index ≤ maxSize)
    (he0 : 0 ≤ read_end_index) (he1 : read_end_index ≤ maxSize)
    (hr0 : 0 ≤ read_index) (hr1 : read_index ≤ maxSize) :
    (read_index ≤ write_index →
      check_read_available write_index read_end_index read_index = (write_index - read_index, -1)) ∧
    (write_index < read_index → read_end_index ≠ read_index →
      check_read_available write_index read_end_index read_index =
        (read_end_index - read_index, -1)) ∧
    (write_index < read_index → read_end_index = read_index →
      check_read_available write_index read_end_index read_index = (write_index, 0)) := by
  refine ⟨fun h1 => ?_, fun h1 h2 => ?_, fun h1 h2 => ?_⟩ <;>
    simp only [check_read_available, is_front_side] <;>
    split_ifs with ha hb <;> simp_all <;> omega

/-- C2 witness: evaluation in back phase at `write_index = 30`,
`read_end_index = 40`, `read_index = 40` (the flip-to-front case). -/
theorem spsc_check_read_available_spec_witness :
    (0 : Int) ≤ 30 ∧ (30 : Int) ≤ 64 ∧ (0 : Int) ≤ 40 ∧ (40 : Int) ≤ 64 ∧
    ((30 : Int) < 40 → (40 : Int) = 40 → check_read_available 30 40 40 = (30, 0)) := by
  refine ⟨by decide, by decide, by decide, by decide, ?_⟩
  exact (spsc_check_read_available_spec 30 40 40 64 (by decide) (by decide)
    (by decide) (by decide) (by decide) (by decide)).2.2

/-- C7: a request larger than `kMaxSize / 2` makes both `getWritePtr` and
`getReadPtr` return the pair `(nullptr, -1)` immediately with the whole ring
state (atomics and both scratch records) unchanged. -/
theorem spsc_too_large_no_state_change (s : Spsc) (wantSize : Int)
    (h : s.kMaxSize / 2 < wantSize) :
    getWritePtr s wantSize = (.ret none (-1), s) ∧
    getReadPtr s wantSize = (.ret none (-1), s) := by
  constructor <;> · simp only [getWritePtr, getReadPtr]; rw [if_pos h]

/-- C7 witness: evaluation on a fresh capacity-64 ring with `wantSize = 33`. -/
theorem spsc_too_large_no_state_change_witness :
    (initSpsc 64).kMaxSize / 2 < 33 ∧
    getWritePtr (initSpsc 64) 33 = (.ret none (-1), initSpsc 64) ∧
    getReadPtr (initSpsc 64) 33 = (.ret none (-1), initSpsc 64) := by
  refine ⟨by decide, ?_, ?_⟩
  · exact (spsc_too_large_no_state_change (initSpsc 64) 33 (by decide)).1
  · exact (spsc_too_large_no_state_change (initSpsc 64) 33 (by decide)).2

/-- C8: committing more than the last recorded `avail` makes `moveWritePtr`
(resp. `moveReadPtr`) return the error sentinel `-1` and leave the ring —
atomics and scratch records — exactly as before the call. -/
theorem spsc_overcommit_no_state_change (s : Spsc) (n : Int) :
    (s.write_im.avail < n → moveWritePtr s n = .ret (-1) s) ∧
    (s.read_im.avail < n → moveReadPtr s n = .ret (-1) s) := by
  constructor <;> intro h
  · simp only [moveWritePtr]; rw [if_pos h]
  · simp only [moveReadPtr]; rw [if_pos h]

/-- C8 witness: evaluation on a fresh capacity-64 ring (both scratch `avail`
fields are 0) with `n = 1`. -/
theorem spsc_overcommit_no_state_change_witness :
    (initSpsc 64).write_im.avail < 1 ∧ (initSpsc 64).read_im.avail < 1 ∧
    moveWritePtr (initSpsc 64) 1 = .ret (-1) (initSpsc 64) ∧
    moveReadPtr (initSpsc 64) 1 = .ret (-1) (initSpsc 64) := by
  refine ⟨by decide, by decide, ?_, ?_⟩
  · exact (spsc_overcommit_no_state_change (initSpsc 64) 1).1 (by decide)
  · exact (spsc_overcommit_no_state_change (initSpsc 64) 1).2 (by decide)

/-- C3: after a successful `getWritePtr` stashed `(tentative_write_index,
tentative_read_end_index, read_index, avail)` in the writer scratch, a
`moveWritePtr n` with `0 ≤ n ≤ avail` on a non-cancelled ring (the atomic
still holds the stashed expected value) publishes the context
`write_index' = tentative_write_index + n` (no wrap) with
`read_end_index' = write_index'` when `read_index ≤ write_index'` (front
phase) and `read_end_index' = tentative_read_end_index` otherwise, and
returns `n`; if the ring was cancelled concurrently it returns `-1`. -/
theorem spsc_moveWritePtr_commit_spec (s : Spsc) (n : Int)
    (h0 : 0 ≤ n) (h1 : n ≤ s.write_im.avail) :
    (s.write_ctx = s.write_im.write_ctx →
      moveWritePtr s n = .ret n
        { s with
          write_ctx := encode_ctx (s.write_im.write_index2 + n)
            (if s.write_im.read_index ≤ s.write_im.write_index2 + n then
              s.write_im.write_index2 + n
            else s.write_im.read_end_index2)
          write_im := { s.write_im with avail := 0 } }) ∧
    (s.write_ctx = encode_ctx (-1) (-1) → 0 ≤ (decode_ctx s.write_im.write_ctx).1 →
      moveWritePtr s n = .ret (-1) s) := by
  constructor
  · intro hc
    simp only [moveWritePtr, is_front_side, decide_eq_true_eq]
    rw [if_neg (by omega), if_pos hc]
  · intro hc hnn
    simp only [moveWritePtr]
    rw [if_neg (by omega),
      if_neg (fun h2 => ne_cancel_ctx_of_decode_nonneg hnn (hc ▸ h2).symm),
      if_pos (hc ▸ int64_neg_cancel_ctx)]

/-- C3 witness: committing 30 of the 39 available elements stashed by the
flip-electing acquire of the concrete trace, and the cancelled-commit case on
the same scratch with the atomic at the sentinel. -/
theorem spsc_moveWritePtr_commit_spec_witness :
    ((0 : Int) ≤ 30 ∧ (30 : Int) ≤ traceE.write_im.avail ∧
      (traceE.write_ctx = traceE.write_im.write_ctx →
        moveWritePtr traceE 30 = .ret 30
          { traceE with
            write_ctx := encode_ctx (traceE.write_im.write_index2 + 30)
              (if traceE.write_im.read_index ≤ traceE.write_im.write_index2 + 30 then
                traceE.write_im.write_index2 + 30
              else traceE.write_im.read_end_index2)
            write_im := { traceE.write_im with avail := 0 } })) ∧
    ({ traceE with write_ctx := encode_ctx (-1) (-1) }.write_ctx = encode_ctx (-1) (-1) →
      0 ≤ (decode_ctx { traceE with
          write_ctx := encode_ctx (-1) (-1) }.write_im.write_ctx).1 →
      moveWritePtr { traceE with write_ctx := encode_ctx (-1) (-1) } 30 =
        .ret (-1) { traceE with write_ctx := encode_ctx (-1) (-1) }) := by
  refine ⟨⟨by decide, by decide, ?_⟩, ?_⟩
  · exact (spsc_moveWritePtr_commit_spec traceE 30 (by decide) (by decide)).1
  · exact (spsc_moveWritePtr_commit_spec
      { traceE with write_ctx := encode_ctx (-1) (-1) } 30 (by decide) (by decide)).2

/-- C4: `cancel` is idempotent and terminal.  On any state whose scratch
records and published atomics predate cancellation (scratch write context and
reader scratch index non-negative; the published context non-negative or
already the sentinel), `cancel` installs the encoded sentinel `(-1,-1)` in the
writer context, sets the reader index to `-1` unless it was already negative,
a second `cancel` changes nothing, and every subsequent `getWritePtr`,
`getReadPtr`, `moveWritePtr` and `moveReadPtr` returns the sentinel `-1`. -/
theorem spsc_cancel_idempotent_terminal (s : Spsc) (want n : Int)
    (h1 : 0 ≤ (decode_ctx s.write_im.write_ctx).1)
    (h2 : 0 ≤ s.read_im.read_index)
    (h3 : 0 ≤ (decode_ctx s.write_ctx).1 ∨ s.write_ctx = encode_ctx (-1) (-1)) :
    cancel (cancel s) = cancel s ∧
    (cancel s).write_ctx = encode_ctx (-1) (-1) ∧
    (0 ≤ s.read_index → (cancel s).read_index = -1) ∧
    (s.read_index < 0 → (cancel s).read_index = s.read_index) ∧
    (getWritePtr (cancel s) want).1 = .ret none (-1) ∧
    (getReadPtr (cancel s) want).1 = .ret none (-1) ∧
    moveWritePtr (cancel s) n = .ret (-1) (cancel s) ∧
    moveReadPtr (cancel s) n = .ret (-1) (cancel s) := by
  have hwc : (cancel s).write_ctx = encode_ctx (-1) (-1) := by
    show (if (decode_ctx s.write_ctx).1 < 0 then s.write_ctx else encode_ctx (-1) (-1)) =
      encode_ctx (-1) (-1)
    rcases h3 with h | h
    · rw [if_neg (by omega)]
    · split_ifs <;> simp [h]
  have hrd : (cancel s).read_index < 0 := by
    show (if s.read_index < 0 then s.read_index else -1) < 0
    split_ifs with h <;> omega
  have hdec : (decode_ctx (cancel s).write_ctx).1 < 0 := by
    rw [hwc, decode_cancel_ctx]
    omega
  refine ⟨?_, hwc, ?_, ?_, ?_, ?_, ?_, ?_⟩
  · show ({ cancel s with
        write_ctx :=
          if (decode_ctx (cancel s).write_ctx).1 < 0 then (cancel s).write_ctx
          else encode_ctx (-1) (-1)
        read_index :=
          if (cancel s).read_index < 0 then (cancel s).read_index else -1 } : Spsc) = cancel s
    rw [if_pos hdec, if_pos hrd]
  · intro h
    show (if s.read_index < 0 then s.read_index else -1) = -1
    rw [if_neg (by omega)]
  · intro h
    show (if s.read_index < 0 then s.read_index else -1) = s.read_index
    rw [if_pos h]
  · exact getWritePtr_cancelled _ _ hdec
  · exact getReadPtr_cancelled _ _ hrd
  · exact moveWritePtr_cancelled _ _ hwc h1
  · exact moveReadPtr_cancelled _ _ hrd h2

/-- C4 witness: cancelling the concrete trace state with published context
`(30, 40)` and reader index 40, then calling each operation once. -/
theorem spsc_cancel_idempotent_terminal_witness :
    (0 ≤ (decode_ctx traceF.write_im.write_ctx).1 ∧
      0 ≤ traceF.read_im.read_index ∧
      (0 ≤ (decode_ctx traceF.write_ctx).1 ∨ traceF.write_ctx = encode_ctx (-1) (-1))) ∧
    (cancel (cancel traceF) = cancel traceF ∧
      (cancel traceF).write_ctx = encode_ctx (-1) (-1) ∧
      (0 ≤ traceF.read_index → (cancel traceF).read_index = -1) ∧
      (traceF.read_index < 0 → (cancel traceF).read_index = traceF.read_index) ∧
      (getWritePtr (cancel traceF) 5).1 = .ret none (-1) ∧
      (getReadPtr (cancel traceF) 5).1 = .ret none (-1) ∧
      moveWritePtr (cancel traceF) 0 = .ret (-1) (cancel traceF) ∧
      moveReadPtr (cancel traceF) 0 = .ret (-1) (cancel traceF)) := by
  refine ⟨⟨by decide, by decide, Or.inl (by decide)⟩, ?_⟩
  exact spsc_cancel_idempotent_terminal traceF 5 0 (by decide) (by decide)
    (Or.inl (by decide))

/-- C5: the claim says `waitUntilEmptyForWriter` returns (uncancelled) only
when no unread elements remain, equivalently that `is_empty` holds only with
zero readable elements.  The code violates this: from a fresh capacity-64
ring, the legal call sequence acquire/commit 40 by the writer, acquire/commit
40 by the reader, then a flip-electing acquire and commit 30 by the writer
reaches the published state `(write_index, read_end_index, read_index) =
(30, 40, 40)`, where `waitUntilEmptyForWriter` returns "empty" although the
code's own `check_read_available` still reports 30 readable elements. -/
theorem spsc_wait_until_empty_bug_eval :
    getWritePtr (initSpsc 64) 32 = (.ret (some 0) 64, traceA) ∧
    moveWritePtr traceA 40 = .ret 40 traceB ∧
    getReadPtr traceB 32 = (.ret (some 0) 40, traceC) ∧
    moveReadPtr traceC 40 = .ret 40 traceD ∧
    getWritePtr traceD 30 = (.ret (some 0) 39, traceE) ∧
    moveWritePtr traceE 30 = .ret 30 traceF ∧
    decode_ctx traceF.write_ctx = (30, 40) ∧
    traceF.read_index = 40 ∧
    waitUntilEmptyForWriter traceF = .retEmpty ∧
    (check_read_available 30 40 40).1 = 30 := by
  decide

/-- C6: on a non-empty, non-cancelled MPSC state with both indices in
`[0, Capacity)`, `peekCommon` returns a slice starting at index `read_index`
of length `min avail num` with `avail` as computed by `read_availe`, and the
region never crosses the wrap seam: `read_index + length ≤ Capacity`. -/
theorem mpsc_peekCommon_contiguous (s : Mpsc) (num : Int) (wait : Bool)
    (h1 : 0 ≤ s.read_index) (h2 : s.read_index < s.maxSize)
    (h3 : 0 ≤ s.read_max_index) (h4 : s.read_max_index < s.maxSize)
    (h5 : s.read_index ≠ s.read_max_index) :
    (peekCommon s num wait).1 =
      .ret (some s.read_index)
        (min (read_availe s.maxSize s.read_max_index s.read_index) num) ∧
    s.read_index + min (read_availe s.maxSize s.read_max_index s.read_index) num ≤
      s.maxSize := by
  constructor
  · simp only [peekCommon]
    rw [if_neg (by omega), if_neg h5]
  · have hmin : min (read_availe s.maxSize s.read_max_index s.read_index) num ≤
        read_availe s.maxSize s.read_max_index s.read_index := min_le_left _ _
    have havail : read_availe s.maxSize s.read_max_index s.read_index ≤
        s.maxSize - s.read_index := by
      simp only [read_availe]
      split_ifs <;> omega
    omega

/-- C6 witness: a capacity-8 ring with `read_index = 6`, `read_max_index = 2`
(the wrapped case): the peek returns the two-element slice `[6, 8)`. -/
theorem mpsc_peekCommon_contiguous_witness :
    ((0 : Int) ≤ 6 ∧ (6 : Int) < 8 ∧ (0 : Int) ≤ 2 ∧ (2 : Int) < 8 ∧ (6 : Int) ≠ 2) ∧
    (peekCommon ⟨3, 2, 6, 0, 0, 8⟩ 5 true).1 =
      .ret (some 6) (min (read_availe 8 2 6) 5) ∧
    (6 : Int) + min (read_availe 8 2 6) 5 ≤ 8 := by
  refine ⟨⟨by decide, by decide, by decide, by decide, by decide⟩, ?_, ?_⟩
  · exact (mpsc_peekCommon_contiguous ⟨3, 2, 6, 0, 0, 8⟩ 5 true (by decide) (by decide)
      (by decide) (by decide) (by decide)).1
  · exact (mpsc_peekCommon_contiguous ⟨3, 2, 6, 0, 0, 8⟩ 5 true (by decide) (by decide)
      (by decide) (by decide) (by decide)).2

/-- C9 counterexample: the claim that every handed-out region start
`write_index2 * sizeof(ElementType)` is a multiple of `ElementAlignment`
fails at the default instantiation (`ElementType = char`, so element size 1,
`ElementAlignment = alignof(int64_t) = 8`): from a fresh capacity-64 ring the
legal sequence `getWritePtr 1` (avail 64), `moveWritePtr 3`, `getWritePtr 1`
hands out the region starting at index 3, and `3 * 1` is not a multiple
of 8. -/
theorem spsc_alignment_counterexample :
    (getWritePtr (initSpsc 64) 1).1 = .ret (some 0) 64 ∧
    (getWritePtr (initSpsc 64) 1).2 = traceA ∧
    moveWritePtr traceA 3 = .ret 3 traceW3 ∧
    (getWritePtr traceW3 1).1 = .ret (some 3) 61 ∧
    ¬ ((3 : Int) * 1) % 8 = 0 := by
  decide

/-- C9 amended: the base buffer pointer produced by the `toAlignedElement`
scan is `ElementAlignment`-aligned whenever the scan succeeds, and every
region handed out by a successful `getWritePtr` starts at buffer index 0
(after a flip) or at the current decoded write index; consequently the region
start is a multiple of `m` (and its byte offset a multiple of
`ElementAlignment = m * sizeof(ElementType)`) whenever the published write
index is a multiple of `m` — which arbitrary commit sizes do not preserve. -/
theorem spsc_alignment_amended (eleAlign reqAlign p q : Nat) (m : Int)
    (s : Spsc) (want avail ptr : Int) (s' : Spsc)
    (hA : toAlignedElement eleAlign reqAlign p = some q)
    (hG : getWritePtr s want = (.ret (some ptr) avail, s'))
    (hm : (decode_ctx s.write_ctx).1 % m = 0) :
    q % reqAlign = 0 ∧ (ptr = 0 ∨ ptr = (decode_ctx s.write_ctx).1) ∧ ptr % m = 0 := by
  have hq : q % reqAlign = 0 := by
    simp only [toAlignedElement] at hA
    exact alignScan_aligned hA
  have hptr : ptr = 0 ∨ ptr = (decode_ctx s.write_ctx).1 :=
    getWritePtr_success_ptr s want ptr avail s' hG
  refine ⟨hq, hptr, ?_⟩
  rcases hptr with h | h
  · rw [h]
    exact Int.zero_emod m
  · rw [h]
    exact hm

/-- C9 amended witness: element size 1, alignment 8, an already-aligned
allocation, and the first acquire on a fresh capacity-64 ring (handed-out
index 0). -/
theorem spsc_alignment_amended_witness :
    toAlignedElement 1 8 0 = some 0 ∧
    getWritePtr (initSpsc 64) 1 = (.ret (some 0) 64, traceA) ∧
    (decode_ctx (initSpsc 64).write_ctx).1 % 8 = 0 ∧
    ((0 : Nat) % 8 = 0 ∧
      ((0 : Int) = 0 ∨ (0 : Int) = (decode_ctx (initSpsc 64).write_ctx).1) ∧
      (0 : Int) % 8 = 0) := by
  refine ⟨by decide, by decide, by decide, ?_⟩
  exact spsc_alignment_amended 1 8 0 0 8 (initSpsc 64) 1 64 0 traceA
    (by decide) (by decide) (by decide)

/-- C10: distinct error kinds collapse to one sentinel at the public
interface: `getWritePtr`/`getReadPtr` return the same pair `(nullptr, -1)`
for a too-large request and for a cancelled ring, and
`moveWritePtr`/`moveReadPtr` return the same `-1` for an overcommit and for a
ring cancelled during the commit, so the return value alone cannot
distinguish TooLarge from Cancelled or Overcommit from Cancelled. -/
theorem spsc_error_collapse (s1 s2 s3 s4 s5 s6 : Spsc)
    (w1 w2 w3 n4 n5 n6 : Int)
    (hTL : s1.kMaxSize / 2 < w1)
    (hCW : (decode_ctx s2.write_ctx).1 < 0)
    (hCR : s3.read_index < 0)
    (hOW : s4.write_im.avail < n4)
    (hOR : s4.read_im.avail < n4)
    (hMC : s5.write_ctx = encode_ctx (-1) (-1))
    (hMC2 : 0 ≤ (decode_ctx s5.write_im.write_ctx).1)
    (hRC : s6.read_index < 0)
    (hRC2 : 0 ≤ s6.read_im.read_index) :
    (getWritePtr s1 w1).1 = .ret none (-1) ∧
    (getReadPtr s1 w1).1 = .ret none (-1) ∧
    (getWritePtr s2 w2).1 = .ret none (-1) ∧
    (getReadPtr s3 w3).1 = .ret none (-1) ∧
    moveWritePtr s4 n4 = .ret (-1) s4 ∧
    moveReadPtr s4 n4 = .ret (-1) s4 ∧
    moveWritePtr s5 n5 = .ret (-1) s5 ∧
    moveReadPtr s6 n6 = .ret (-1) s6 := by
  refine ⟨?_, ?_, ?_, ?_, ?_, ?_, ?_, ?_⟩
  · rw [(spsc_too_large_no_state_change s1 w1 hTL).1]
  · rw [(spsc_too_large_no_state_change s1 w1 hTL).2]
  · exact getWritePtr_cancelled s2 w2 hCW
  · exact getReadPtr_cancelled s3 w3 hCR
  · simp only [moveWritePtr]
    rw [if_pos hOW]
  · simp only [moveReadPtr]
    rw [if_pos hOR]
  · exact moveWritePtr_cancelled s5 n5 hMC hMC2
  · exact moveReadPtr_cancelled s6 n6 hRC hRC2

/-- C10 witness: concrete states for each error scenario on capacity-64
rings: a too-large request (want 40), a cancelled writer context, a negative
reader index, zeroed scratch for the overcommits, and the cancelled trace
state for the commits. -/
theorem spsc_error_collapse_witness :
    ((initSpsc 64).kMaxSize / 2 < 40 ∧
      (decode_ctx (cancel (initSpsc 64)).write_ctx).1 < 0 ∧
      (cancel (initSpsc 64)).read_index < 0 ∧
      (initSpsc 64).write_im.avail < 1 ∧
      (initSpsc 64).read_im.avail < 1 ∧
      (cancel traceF).write_ctx = encode_ctx (-1) (-1) ∧
      0 ≤ (decode_ctx (cancel traceF).write_im.write_ctx).1 ∧
      (cancel traceF).read_index < 0 ∧
      0 ≤ (cancel traceF).read_im.read_index) ∧
    ((getWritePtr (initSpsc 64) 40).1 = .ret none (-1) ∧
      (getReadPtr (initSpsc 64) 40).1 = .ret none (-1) ∧
      (getWritePtr (cancel (initSpsc 64)) 5).1 = .ret none (-1) ∧
      (getReadPtr (cancel (initSpsc 64)) 5).1 = .ret none (-1) ∧
      moveWritePtr (initSpsc 64) 1 = .ret (-1) (initSpsc 64) ∧
      moveReadPtr (initSpsc 64) 1 = .ret (-1) (initSpsc 64) ∧
      moveWritePtr (cancel traceF) 7 = .ret (-1) (cancel traceF) ∧
      moveReadPtr (cancel traceF) 7 = .ret (-1) (cancel traceF)) := by
  refine ⟨⟨by decide, by decide, by decide, by decide, by decide, by decide, by decide,
    by decide, by decide⟩, ?_⟩
  exact spsc_error_collapse (initSpsc 64) (cancel (initSpsc 64)) (cancel (initSpsc 64))
    (initSpsc 64) (cancel traceF) (cancel traceF) 40 5 5 1 7 7
    (by decide) (by decide) (by decide) (by decide) (by decide) (by decide)
    (by decide) (by decide) (by decide)
